import Mathlib

/-!
Verification of the restaurant-sales forecasting pipeline
(ensemble weighting + sequential overlay corrections).

Shallow embedding of the Python sources:
  * `src/forecasting/pipeline/export.py`            (guardrails, final assembly)
  * `src/forecasting/features/spike_uplift.py`      (spike priors, spike overlay)
  * `src/forecasting/pipeline/growth_calibration.py` (growth calibration)
  * `src/forecasting/models/ensemble.py`            (ensemble fit / predict / save)

Currency values and multipliers are modelled as rationals (`ℚ`); dataframes
are lists of row structures; nullable columns are `Option` fields; pandas
left-merges against a unique-keyed calendar are modelled as key lookups.
-/

set_option maxHeartbeats 1000000

namespace Forecasting

/-- Calendar date (pandas `Timestamp`, day resolution): year, month, day. -/
structure Date where
  year : Int
  month : Nat
  day : Nat
deriving DecidableEq, Repr

/-- Lexicographic order on dates, as Bool (mirrors pandas datetime ordering). -/
def Date.leB (a b : Date) : Bool :=
  decide (a.year < b.year ∨ (a.year = b.year ∧
    (a.month < b.month ∨ (a.month = b.month ∧ a.day ≤ b.day))))

/-- Key lookup into a uniquely-keyed frame (pandas left merge against a
one-row-per-key table): the value for the first matching key, if any. -/
def lookupKey {α β : Type} [DecidableEq α] (k : α) (l : List (α × β)) : Option β :=
  (l.find? (fun p => decide (p.1 = k))).map (·.2)

/-- `np.clip(x, lo, hi) = min(hi, max(lo, x))`. -/
def clipQ (lo hi x : ℚ) : ℚ := min hi (max lo x)

/-! ## Guardrails (`export.py::apply_guardrails`) -/

/-- One row of the forecast frame as seen by the guardrail step:
date key, the three quantiles, and the closed flag column. -/
structure FRow where
  ds : Date
  p50 : ℚ
  p80 : ℚ
  p90 : ℚ
  is_closed : Bool
deriving DecidableEq, Repr

/-- The quantile transformations of `apply_guardrails`, in source order:
closed days zeroed, then clamp each quantile to `≥ 0`, then
`p80 = max(p50, p80)` and `p90 = max(p80, p90)`. -/
def guardrailQuantiles (closed : Bool) (p50 p80 p90 : ℚ) : ℚ × ℚ × ℚ :=
  let z50 := if closed then 0 else p50
  let z80 := if closed then 0 else p80
  let z90 := if closed then 0 else p90
  let c50 := max z50 0
  let c80 := max z80 0
  let c90 := max z90 0
  (c50, max c50 c80, max (max c50 c80) c90)

/-- Per-row effect of `apply_guardrails`: the hours calendar's closed flag
wins over any flag already present (the merge result is overwritten with the
`_hours` column), missing calendar dates are filled with `False`
(`fillna(False)`), then the quantile guardrails run. -/
def guardrailRow (dfHours : List (Date × Bool)) (r : FRow) : FRow :=
  let closed := (lookupKey r.ds dfHours).getD false
  let q := guardrailQuantiles closed r.p50 r.p80 r.p90
  { ds := r.ds, p50 := q.1, p80 := q.2.1, p90 := q.2.2, is_closed := closed }

/-- `export.py::apply_guardrails` over a whole forecast frame.  The hours
calendar has one row per date (data-model invariant), so the left merge is a
per-row key lookup. -/
def apply_guardrails (df : List FRow) (dfHours : List (Date × Bool)) : List FRow :=
  df.map (guardrailRow dfHours)

/-- Insertion into a sorted list (helper for the `sort_values("ds")` step). -/
def insertSorted {α : Type} (le : α → α → Bool) (x : α) : List α → List α
  | [] => [x]
  | y :: ys => if le x y then x :: y :: ys else y :: insertSorted le x ys

/-- Insertion sort (stable), modelling `DataFrame.sort_values`. -/
def sortByB {α : Type} (le : α → α → Bool) (l : List α) : List α :=
  l.foldr (insertSorted le) []

/-- One row of the final daily forecast table
(`ds, p50, p80, p90, is_closed, open_minutes, data_through`). -/
structure FinalRow where
  ds : Date
  p50 : ℚ
  p80 : ℚ
  p90 : ℚ
  is_closed : Bool
  open_minutes : Option ℚ
  data_through : String
deriving DecidableEq, Repr

/-- The tail of `export.py::generate_forecast` after manual overrides: the
final `apply_guardrails` call, the `open_minutes` left merge, the
`data_through` column, `sort_values("ds")` and the column selection. -/
def generate_forecast_final (df : List FRow) (dfHours : List (Date × Bool))
    (minutes : List (Date × ℚ)) (dataThrough : String) : List FinalRow :=
  let g := apply_guardrails df dfHours
  let withMeta := g.map (fun r =>
    { ds := r.ds, p50 := r.p50, p80 := r.p80, p90 := r.p90,
      is_closed := r.is_closed, open_minutes := lookupKey r.ds minutes,
      data_through := dataThrough : FinalRow })
  sortByB (fun a b => Date.leB a.ds b.ds) withMeta

theorem mem_insertSorted {α : Type} (le : α → α → Bool) (x y : α) :
    ∀ l : List α, y ∈ insertSorted le x l → y = x ∨ y ∈ l := by
  intro l
  induction l with
  | nil => simp [insertSorted]
  | cons a as ih =>
    intro hy
    simp only [insertSorted] at hy
    by_cases h : le x a = true
    · rw [if_pos h] at hy
      rcases List.mem_cons.mp hy with h1 | h1
      · exact Or.inl h1
      · exact Or.inr h1
    · rw [if_neg h] at hy
      rcases List.mem_cons.mp hy with h1 | h1
      · exact Or.inr (by simp [h1])
      · rcases ih h1 with h2 | h2
        · exact Or.inl h2
        · exact Or.inr (List.mem_cons_of_mem _ h2)

theorem mem_sortByB {α : Type} (le : α → α → Bool) (y : α) :
    ∀ l : List α, y ∈ sortByB le l → y ∈ l := by
  intro l
  induction l with
  | nil => simp [sortByB]
  | cons a as ih =>
    intro hy
    simp only [sortByB, List.foldr] at hy
    rcases mem_insertSorted le a y _ hy with h | h
    · simp [h]
    · exact List.mem_cons_of_mem _ (ih h)

theorem guardrailQuantiles_inv (closed : Bool) (a b c : ℚ) :
    0 ≤ (guardrailQuantiles closed a b c).1 ∧
    (guardrailQuantiles closed a b c).1 ≤ (guardrailQuantiles closed a b c).2.1 ∧
    (guardrailQuantiles closed a b c).2.1 ≤ (guardrailQuantiles closed a b c).2.2 ∧
    (closed = true → (guardrailQuantiles closed a b c) = (0, 0, 0)) := by
  cases closed with
  | false =>
    refine ⟨?_, ?_, ?_, ?_⟩
    · simp only [guardrailQuantiles]; exact le_max_right _ _
    · simp only [guardrailQuantiles]; exact le_max_left _ _
    · simp only [guardrailQuantiles]; exact le_max_left _ _
    · intro h; simp at h
  | true =>
    refine ⟨?_, ?_, ?_, ?_⟩ <;> simp [guardrailQuantiles]

/-- C1: every row produced by `apply_guardrails` satisfies
`0 ≤ p50 ≤ p80 ≤ p90`, closed rows have all quantiles zero, and since
`generate_forecast` runs `apply_guardrails` last (before only merging
metadata, sorting and selecting columns), the same invariants hold for
every row of the final daily forecast. -/
theorem guardrails_invariants
    (df : List FRow) (dfHours : List (Date × Bool))
    (minutes : List (Date × ℚ)) (dataThrough : String) :
    (∀ r ∈ apply_guardrails df dfHours,
      (0 ≤ r.p50 ∧ r.p50 ≤ r.p80 ∧ r.p80 ≤ r.p90) ∧
      (r.is_closed = true → r.p50 = 0 ∧ r.p80 = 0 ∧ r.p90 = 0)) ∧
    (∀ r ∈ generate_forecast_final df dfHours minutes dataThrough,
      (0 ≤ r.p50 ∧ r.p50 ≤ r.p80 ∧ r.p80 ≤ r.p90) ∧
      (r.is_closed = true → r.p50 = 0 ∧ r.p80 = 0 ∧ r.p90 = 0)) := by
  have hrow : ∀ (r : FRow),
      (0 ≤ (guardrailRow dfHours r).p50 ∧
        (guardrailRow dfHours r).p50 ≤ (guardrailRow dfHours r).p80 ∧
        (guardrailRow dfHours r).p80 ≤ (guardrailRow dfHours r).p90) ∧
      ((guardrailRow dfHours r).is_closed = true →
        (guardrailRow dfHours r).p50 = 0 ∧ (guardrailRow dfHours r).p80 = 0 ∧
        (guardrailRow dfHours r).p90 = 0) := by
    intro r
    obtain ⟨h0, h1, h2, h3⟩ :=
      guardrailQuantiles_inv ((lookupKey r.ds dfHours).getD false) r.p50 r.p80 r.p90
    constructor
    · exact ⟨h0, h1, h2⟩
    · intro hc
      simp only [guardrailRow] at hc ⊢
      rw [h3 hc]
      exact ⟨rfl, rfl, rfl⟩
  constructor
  · intro r hr
    simp only [apply_guardrails, List.mem_map] at hr
    obtain ⟨r0, _, rfl⟩ := hr
    exact hrow r0
  · intro r hr
    have hr' := mem_sortByB _ _ _ hr
    simp only [List.mem_map] at hr'
    obtain ⟨r0, hr0, rfl⟩ := hr'
    simp only [apply_guardrails, List.mem_map] at hr0
    obtain ⟨r1, _, rfl⟩ := hr0
    obtain ⟨⟨a, b, c⟩, d⟩ := hrow r1
    exact ⟨⟨a, b, c⟩, d⟩

/-- Witness for C1 at a concrete input: a closed day with negative p50 and a
normal open day. -/
theorem guardrails_invariants_witness :
    let d1 : Date := ⟨2026, 1, 1⟩
    let d2 : Date := ⟨2026, 1, 2⟩
    let df : List FRow := [⟨d1, -5, 3, 1, false⟩, ⟨d2, 10, 8, 20, false⟩]
    let hours : List (Date × Bool) := [(d1, true), (d2, false)]
    ∀ r ∈ apply_guardrails df hours,
      (0 ≤ r.p50 ∧ r.p50 ≤ r.p80 ∧ r.p80 ≤ r.p90) ∧
      (r.is_closed = true → r.p50 = 0 ∧ r.p80 = 0 ∧ r.p90 = 0) := by
  intro d1 d2 df hours
  exact (guardrails_invariants df hours [] "2025-12-31").1

theorem gq_true (a b c : ℚ) : guardrailQuantiles true a b c = (0, 0, 0) := by
  simp [guardrailQuantiles]

theorem gq_false_fixed {a b c : ℚ} (h0 : 0 ≤ a) (h1 : a ≤ b) (h2 : b ≤ c) :
    guardrailQuantiles false a b c = (a, b, c) := by
  simp only [guardrailQuantiles, if_neg (by simp : ¬(false = true))]
  rw [max_eq_left h0, max_eq_left (le_trans h0 h1),
    max_eq_left (le_trans (le_trans h0 h1) h2), max_eq_right h1, max_eq_right h2]

theorem guardrailRow_idem (dfHours : List (Date × Bool)) (r : FRow) :
    guardrailRow dfHours (guardrailRow dfHours r) = guardrailRow dfHours r := by
  obtain ⟨h0, h1, h2, h3⟩ :=
    guardrailQuantiles_inv ((lookupKey r.ds dfHours).getD false) r.p50 r.p80 r.p90
  simp only [guardrailRow, FRow.mk.injEq]
  cases hcl : (lookupKey r.ds dfHours).getD false with
  | true =>
    rw [hcl] at h3
    rw [h3 rfl]
    simp [gq_true]
  | false =>
    rw [hcl] at h0 h1 h2
    rw [gq_false_fixed h0 h1 h2]
    simp

/-- C3: `apply_guardrails` is idempotent — applying it twice with the same
hours calendar returns the same frame (same `p50`/`p80`/`p90` and closed
flags) as applying it once. -/
theorem guardrails_idempotent (df : List FRow) (dfHours : List (Date × Bool)) :
    apply_guardrails (apply_guardrails df dfHours) dfHours =
      apply_guardrails df dfHours := by
  simp only [apply_guardrails, List.map_map]
  have hfun : guardrailRow dfHours ∘ guardrailRow dfHours = guardrailRow dfHours :=
    funext (guardrailRow_idem dfHours)
  rw [hfun]

/-- C9: a forecast row whose date is absent from the hours calendar has its
closed flag filled with `False` by the left merge + `fillna(False)`; its
quantiles are clamped and made monotone but not zeroed, and every returned
closed flag is a (non-null) boolean fully determined by the calendar lookup. -/
theorem guardrails_missing_date
    (df : List FRow) (dfHours : List (Date × Bool)) (r : FRow)
    (hmem : r ∈ df) (hnone : lookupKey r.ds dfHours = none) :
    guardrailRow dfHours r ∈ apply_guardrails df dfHours ∧
    (guardrailRow dfHours r).is_closed = false ∧
    (guardrailRow dfHours r).p50 = max r.p50 0 ∧
    (guardrailRow dfHours r).p80 = max (max r.p50 0) (max r.p80 0) ∧
    (guardrailRow dfHours r).p90 =
      max (max (max r.p50 0) (max r.p80 0)) (max r.p90 0) ∧
    (∀ r' ∈ apply_guardrails df dfHours,
      r'.is_closed = (lookupKey r'.ds dfHours).getD false) := by
  refine ⟨List.mem_map_of_mem _ hmem, ?_, ?_, ?_, ?_, ?_⟩
  · simp [guardrailRow, hnone]
  · simp [guardrailRow, guardrailQuantiles, hnone]
  · simp [guardrailRow, guardrailQuantiles, hnone]
  · simp [guardrailRow, guardrailQuantiles, hnone]
  · intro r' hr'
    simp only [apply_guardrails, List.mem_map] at hr'
    obtain ⟨r0, _, rfl⟩ := hr'
    rfl

/-- Witness for C9: a row dated 2026-01-01 with a pre-existing closed flag,
against a calendar that only covers 2026-01-02; the merge discards the old
flag and fills `False`. -/
theorem guardrails_missing_date_witness :
    let d1 : Date := ⟨2026, 1, 1⟩
    let r : FRow := ⟨d1, -3, 5, 4, true⟩
    let hours : List (Date × Bool) := [(⟨2026, 1, 2⟩, true)]
    (guardrailRow hours r).is_closed = false ∧
    (guardrailRow hours r).p50 = 0 ∧
    (guardrailRow hours r).p80 = 5 ∧
    (guardrailRow hours r).p90 = 5 := by
  intro d1 r hours
  obtain ⟨_, hflag, hp50, hp80, hp90, _⟩ :=
    guardrails_missing_date [r] hours r (by simp) (by decide)
  refine ⟨hflag, ?_, ?_, ?_⟩
  · rw [hp50]; decide
  · rw [hp80]; decide
  · rw [hp90]; decide

/-! ## Spike-day uplift overlay (`spike_uplift.py::apply_spike_uplift_overlay`) -/

/-- One row of the forecast frame as seen by the spike overlay: date,
quantiles, the boolean spike-flag columns present on the frame (association
list column-name → value), and the two adjustment columns the overlay
creates.  `adjustment_log = none` models the empty string; `some (fs, m)`
models the log string naming the active flags and the applied multiplier. -/
structure SRow where
  ds : Date
  p50 : ℚ
  p80 : ℚ
  p90 : ℚ
  flags : List (String × Bool)
  adjustment_log : Option (List String × ℚ)
  adjustment_multiplier : ℚ
deriving DecidableEq, Repr

/-- Python's `max` on a nonempty list (`[]` falls back to `0`, unused). -/
def pyMax : List ℚ → ℚ
  | [] => 0
  | x :: xs => xs.foldl max x

/-- The inner loop of `apply_spike_uplift_overlay` for one row: the flags
that are in the `spike_flags` list, present as a column on the frame, present
in the uplift priors map, and true on this row — paired with their
multipliers. -/
def activePairs (spikeFlags : List String) (upliftMap : List (String × ℚ))
    (r : SRow) : List (String × ℚ) :=
  spikeFlags.filterMap (fun f =>
    match lookupKey f r.flags with
    | some true => (lookupKey f upliftMap).map (fun m => (f, m))
    | _ => none)

/-- Per-row effect of `apply_spike_uplift_overlay`: initialize
`adjustment_log = ""` and `adjustment_multiplier = 1.0`; if any spike flag is
active, multiply `p50`/`p80`/`p90` by the MAX of the active multipliers (the
V5.0 non-compounding fix), record it, and log the active flags. -/
def spikeOverlayRow (spikeFlags : List String) (upliftMap : List (String × ℚ))
    (r : SRow) : SRow :=
  let r0 := { r with adjustment_log := none, adjustment_multiplier := 1 }
  let act := activePairs spikeFlags upliftMap r
  if act.isEmpty then r0
  else
    let m := pyMax (act.map Prod.snd)
    { r0 with
        p50 := r.p50 * m
        p80 := r.p80 * m
        p90 := r.p90 * m
        adjustment_multiplier := m
        adjustment_log := some (act.map Prod.fst, m) }

/-- `spike_uplift.py::apply_spike_uplift_overlay`.  `dfUplift` is the priors
table projected to `(spike_flag, uplift_multiplier)` (one row per flag, so
`dict(zip(...))` is a key lookup); `spikeFlags = none` models the default
`spike_flags=None`, which uses `df_uplift["spike_flag"].tolist()`.  The
source copies the input frame, so the function is pure. -/
def apply_spike_uplift_overlay (df : List SRow) (dfUplift : List (String × ℚ))
    (spikeFlags : Option (List String) := none) : List SRow :=
  let flags := spikeFlags.getD (dfUplift.map Prod.fst)
  df.map (spikeOverlayRow flags dfUplift)

theorem le_foldl_max (l : List ℚ) : ∀ a : ℚ, a ≤ l.foldl max a := by
  induction l with
  | nil => intro a; simp
  | cons x xs ih =>
    intro a
    exact le_trans (le_max_left a x) (ih (max a x))

theorem mem_le_foldl_max (l : List ℚ) :
    ∀ (a x : ℚ), x ∈ l → x ≤ l.foldl max a := by
  induction l with
  | nil => intro a x hx; simp at hx
  | cons y ys ih =>
    intro a x hx
    rcases List.mem_cons.mp hx with rfl | hx
    · exact le_trans (le_max_right a x) (le_foldl_max ys (max a x))
    · exact ih (max a y) x hx

theorem foldl_max_mem (l : List ℚ) : ∀ a : ℚ, l.foldl max a ∈ a :: l := by
  induction l with
  | nil => intro a; simp
  | cons x xs ih =>
    intro a
    rw [List.foldl_cons]
    have h := ih (max a x)
    rcases List.mem_cons.mp h with h | h
    · rw [h]
      rcases max_choice a x with hm | hm <;> rw [hm]
      · exact List.mem_cons_self _ _
      · exact List.mem_cons_of_mem _ (List.mem_cons_self _ _)
    · exact List.mem_cons_of_mem _ (List.mem_cons_of_mem _ h)

theorem pyMax_mem {l : List ℚ} (h : l ≠ []) : pyMax l ∈ l := by
  cases l with
  | nil => exact absurd rfl h
  | cons x xs =>
    rcases List.mem_cons.mp (foldl_max_mem xs x) with h | h
    · rw [pyMax, h]; exact List.mem_cons_self _ _
    · exact List.mem_cons_of_mem _ h

theorem pyMax_is_ub {l : List ℚ} {x : ℚ} (hx : x ∈ l) : x ≤ pyMax l := by
  cases l with
  | nil => simp at hx
  | cons y ys =>
    rcases List.mem_cons.mp hx with rfl | hx
    · exact le_foldl_max ys x
    · exact mem_le_foldl_max ys y x hx

/-- C2: on a day with at least one active spike flag (present both on the
forecast frame and in the priors table), `apply_spike_uplift_overlay`
multiplies `p50`/`p80`/`p90` by exactly the maximum of the active flags'
multipliers — a member of the active multipliers and an upper bound of all
of them, never their product — and records that multiplier in
`adjustment_multiplier`. -/
theorem spike_overlay_max_multiplier
    (df : List SRow) (dfUplift : List (String × ℚ)) (r : SRow)
    (hr : r ∈ df)
    (hact : activePairs (dfUplift.map Prod.fst) dfUplift r ≠ []) :
    let act := activePairs (dfUplift.map Prod.fst) dfUplift r
    let M := pyMax (act.map Prod.snd)
    let out := spikeOverlayRow (dfUplift.map Prod.fst) dfUplift r
    out ∈ apply_spike_uplift_overlay df dfUplift ∧
    out.p50 = r.p50 * M ∧ out.p80 = r.p80 * M ∧ out.p90 = r.p90 * M ∧
    out.adjustment_multiplier = M ∧
    M ∈ act.map Prod.snd ∧ (∀ m ∈ act.map Prod.snd, m ≤ M) := by
  intro act M out
  have hne : act.isEmpty = false := by
    simp [List.isEmpty_iff]
    exact hact
  have hout : out = { r with
      p50 := r.p50 * M
      p80 := r.p80 * M
      p90 := r.p90 * M
      adjustment_multiplier := M
      adjustment_log := some (act.map Prod.fst, M) } := by
    simp only [out, spikeOverlayRow, hne]
    rfl
  have hmapne : act.map Prod.snd ≠ [] := by
    simp [List.map_eq_nil_iff]
    exact hact
  refine ⟨List.mem_map_of_mem _ hr, ?_, ?_, ?_, ?_, pyMax_mem hmapne,
    fun m hm => pyMax_is_ub hm⟩ <;> rw [hout]

/-- Witness for C2: a day flagged both `is_black_friday` (multiplier 1.6)
and `is_day_after_thanksgiving` (multiplier 1.6); the applied multiplier is
1.6, not the product 2.56. -/
theorem spike_overlay_max_multiplier_witness :
    let r : SRow := ⟨⟨2026, 11, 27⟩, 100, 120, 140,
      [("is_black_friday", true), ("is_day_after_thanksgiving", true)],
      none, 1⟩
    let up : List (String × ℚ) :=
      [("is_black_friday", 8/5), ("is_day_after_thanksgiving", 8/5)]
    let out := spikeOverlayRow (up.map Prod.fst) up r
    out.adjustment_multiplier = 8/5 ∧ out.adjustment_multiplier ≠ 64/25 ∧
    out.p50 = 160 := by
  intro r up out
  obtain ⟨_, hp50, _, _, hmul, _, _⟩ :=
    spike_overlay_max_multiplier [r] up r (by simp) (by decide)
  have hact2 : activePairs (up.map Prod.fst) up r =
      [("is_black_friday", (8 : ℚ)/5), ("is_day_after_thanksgiving", (8 : ℚ)/5)] := by
    rfl
  have hM : pyMax (List.map Prod.snd
      (activePairs (up.map Prod.fst) up r)) = 8/5 := by
    rw [hact2]
    simp [pyMax]
  refine ⟨?_, ?_, ?_⟩
  · rw [hmul]; exact hM
  · rw [hmul, hM]; norm_num
  · rw [hp50, hM]
    show (100 : ℚ) * (8/5) = 160
    norm_num

/-- C10: a row with no active spike flag (among flags present both on the
frame and in the priors) is left completely unadjusted: quantiles unchanged,
`adjustment_multiplier = 1.0`, `adjustment_log` empty.  The overlay maps
over a copy, so the caller's frame is untouched (the embedding is pure). -/
theorem spike_overlay_no_active_flags
    (df : List SRow) (dfUplift : List (String × ℚ)) (r : SRow)
    (hr : r ∈ df)
    (hact : activePairs (dfUplift.map Prod.fst) dfUplift r = []) :
    let out := spikeOverlayRow (dfUplift.map Prod.fst) dfUplift r
    out ∈ apply_spike_uplift_overlay df dfUplift ∧
    out.ds = r.ds ∧ out.p50 = r.p50 ∧ out.p80 = r.p80 ∧ out.p90 = r.p90 ∧
    out.adjustment_multiplier = 1 ∧ out.adjustment_log = none := by
  intro out
  have hne : (activePairs (dfUplift.map Prod.fst) dfUplift r).isEmpty = true := by
    simp [List.isEmpty_iff, hact]
  have hout : out = { r with
      adjustment_log := none
      adjustment_multiplier := 1 } := by
    simp only [out, spikeOverlayRow, hne]
    rfl
  refine ⟨List.mem_map_of_mem _ hr, ?_, ?_, ?_, ?_, ?_, ?_⟩ <;> rw [hout]

/-- Witness for C10: a row whose only flag is false is returned unchanged
except for the initialized adjustment columns. -/
theorem spike_overlay_no_active_flags_witness :
    let r : SRow := ⟨⟨2026, 3, 3⟩, 55, 60, 70,
      [("is_black_friday", false)], none, 0⟩
    let up : List (String × ℚ) := [("is_black_friday", 8/5)]
    let out := spikeOverlayRow (up.map Prod.fst) up r
    out.p50 = 55 ∧ out.adjustment_multiplier = 1 ∧ out.adjustment_log = none := by
  intro r up out
  obtain ⟨_, _, hp50, _, _, hmul, hlog⟩ :=
    spike_overlay_no_active_flags [r] up r (by simp) (by decide)
  exact ⟨by rw [hp50], hmul, hlog⟩

/-! ## Spike uplift priors (`spike_uplift.py::compute_spike_uplift_priors`) -/

/-- One row of the historical sales frame used to compute spike priors:
`ds, y, is_closed, dow, month` and the boolean spike-flag columns (the
source derives `dow`/`month` from `ds` when absent; they are modelled as
present fields). -/
structure HRow where
  ds : Date
  y : ℚ
  is_closed : Bool
  dow : Nat
  month : Nat
  flags : List (String × Bool)
deriving DecidableEq, Repr

/-- Value of a boolean spike-flag column on a history row. -/
def flagTrue (r : HRow) (f : String) : Bool := (lookupKey f r.flags).getD false

/-- pandas `Series.median`: sort ascending; odd count takes the middle
element, even count averages the two middle elements. -/
def seriesMedian (l : List ℚ) : ℚ :=
  let s := sortByB (fun a b => decide (a ≤ b)) l
  let n := s.length
  if n % 2 = 1 then s.getD (n / 2) 0
  else (s.getD (n / 2 - 1) 0 + s.getD (n / 2) 0) / 2

/-- Multiplicity of `v` in `l`. -/
def countOf (l : List Nat) (v : Nat) : Nat :=
  (l.filter (fun x => decide (x = v))).length

/-- pandas `Series.mode()[0]` guarded by `if len(...) > 0 else None`: the
smallest among the most frequent values (mode returns them sorted), `none`
for an empty series. -/
def seriesModeHead (l : List Nat) : Option Nat :=
  let maxCount := (l.map (countOf l)).foldl Nat.max 0
  (sortByB (fun a b => decide (a ≤ b)) l.dedup).find?
    (fun v => decide (countOf l v = maxCount))

/-- The matched-baseline fallback chain: same day-of-week + same month
(excluding the spike flag); if fewer than 3 days, same day-of-week across
all months; if still fewer than 3, all non-spike open days.  Returns the
baseline days and the `baseline_method` label. -/
def matchedBaseline (dfOpen : List HRow) (flag : String)
    (sdow smonth : Option Nat) : List HRow × String :=
  let b1 := dfOpen.filter (fun r =>
    decide (some r.dow = sdow) && decide (some r.month = smonth) &&
    !(flagTrue r flag))
  if b1.length < 3 then
    let b2 := dfOpen.filter (fun r =>
      decide (some r.dow = sdow) && !(flagTrue r flag))
    if b2.length < 3 then
      (dfOpen.filter (fun r => !(flagTrue r flag)), "all_nonspike")
    else (b2, "dow_all")
  else (b1, "dow_month")

/-- One row of the priors table
(`spike_flag, uplift_multiplier, confidence, n_obs, baseline_method`). -/
structure PriorRow where
  spike_flag : String
  uplift_multiplier : ℚ
  confidence : String
  n_obs : Nat
  baseline_method : String
deriving DecidableEq, Repr

/-- The per-flag body of the loop in `compute_spike_uplift_priors`:
insufficient observations give the neutral multiplier; otherwise the raw
uplift `median(spike)/median(baseline)` (1.0 when the baseline median is not
positive) is shrunk toward 1 and clipped to `[0.7, max_multiplier]`. -/
def computeFlagPrior (dfOpen : List HRow) (minObs : Nat)
    (shrink maxMult : ℚ) (flag : String) : PriorRow :=
  let spikeDays := dfOpen.filter (fun r => flagTrue r flag)
  let n := spikeDays.length
  if n < minObs then ⟨flag, 1, "insufficient", n, "none"⟩
  else
    let sdow := seriesModeHead (spikeDays.map (·.dow))
    let smonth := seriesModeHead (spikeDays.map (·.month))
    let bm := matchedBaseline dfOpen flag sdow smonth
    if bm.1.length = 0 then ⟨flag, 1, "no_baseline", n, "none"⟩
    else
      let spikeMedian := seriesMedian (spikeDays.map (·.y))
      let baselineMedian := seriesMedian (bm.1.map (·.y))
      let rawUplift := if 0 < baselineMedian then spikeMedian / baselineMedian else 1
      let shrunk := 1 + shrink * (rawUplift - 1)
      let capped := clipQ (7/10) maxMult shrunk
      let confidence :=
        if 5 ≤ n then "high"
        else if 3 ≤ n then "medium"
        else if 2 ≤ n then "low"
        else "very_low"
      ⟨flag, capped, confidence, n, bm.2⟩

/-- The hardcoded spike-flag list of `compute_spike_uplift_priors`. -/
def SPIKE_FLAGS : List String :=
  ["is_black_friday", "is_thanksgiving_day", "is_day_after_thanksgiving",
   "is_memorial_day", "is_memorial_day_weekend", "is_labor_day",
   "is_labor_day_weekend", "is_independence_day", "is_christmas_eve",
   "is_day_after_christmas", "is_year_end_week"]

/-- The `ds <= ds_max` truncation followed by the open-days filter of
`compute_spike_uplift_priors`. -/
def truncatedOpen (dfSales : List HRow) (dsMax : Option Date) : List HRow :=
  let dfS : List HRow :=
    match dsMax with
    | some d => dfSales.filter (fun r => Date.leB r.ds d)
    | none => dfSales
  dfS.filter (fun r => !r.is_closed)

/-- `spike_uplift.py::compute_spike_uplift_priors`: truncate to `ds_max`,
keep open days, and emit one prior row per hardcoded spike flag that exists
as a column (`cols`) of the sales frame.  With no open days the result is an
empty frame. -/
def compute_spike_uplift_priors (cols : List String) (dfSales : List HRow)
    (dsMax : Option Date) (minObs : Nat) (shrink maxMult : ℚ) : List PriorRow :=
  let dfOpen := truncatedOpen dfSales dsMax
  if dfOpen.length = 0 then []
  else
    (SPIKE_FLAGS.filter (fun f => decide (f ∈ cols))).map
      (computeFlagPrior dfOpen minObs shrink maxMult)

theorem clipQ_bounds {lo hi : ℚ} (x : ℚ) (h : lo ≤ hi) :
    lo ≤ clipQ lo hi x ∧ clipQ lo hi x ≤ hi :=
  ⟨le_min h (le_max_left _ _), min_le_left _ _⟩

/-- C7: for a spike flag with at least `min_observations` observations, a
nonempty matched baseline and positive baseline median, the emitted
multiplier is `clip(1 + shrinkage*(raw − 1), 0.7, max_multiplier)` with
`raw = median(spike)/median(baseline)`, hence always within
`[0.7, max_multiplier]` — including a flag with exactly one observation when
`min_observations = 1`. -/
theorem spike_priors_formula
    (cols : List String) (dfSales : List HRow) (dsMax : Option Date)
    (minObs : Nat) (shrink maxMult : ℚ) (flag : String)
    (hflag : flag ∈ SPIKE_FLAGS.filter (fun f => decide (f ∈ cols)))
    (hn : minObs ≤ ((truncatedOpen dfSales dsMax).filter
      (fun r => flagTrue r flag)).length)
    (hne : (truncatedOpen dfSales dsMax).filter (fun r => flagTrue r flag) ≠ [])
    (hbase : (matchedBaseline (truncatedOpen dfSales dsMax) flag
      (seriesModeHead (((truncatedOpen dfSales dsMax).filter
        (fun r => flagTrue r flag)).map (·.dow)))
      (seriesModeHead (((truncatedOpen dfSales dsMax).filter
        (fun r => flagTrue r flag)).map (·.month)))).1 ≠ [])
    (hmed : 0 < seriesMedian ((matchedBaseline (truncatedOpen dfSales dsMax) flag
      (seriesModeHead (((truncatedOpen dfSales dsMax).filter
        (fun r => flagTrue r flag)).map (·.dow)))
      (seriesModeHead (((truncatedOpen dfSales dsMax).filter
        (fun r => flagTrue r flag)).map (·.month)))).1.map (·.y)))
    (hcap : 7/10 ≤ maxMult) :
    let dfOpen := truncatedOpen dfSales dsMax
    let spikeDays := dfOpen.filter (fun r => flagTrue r flag)
    let baseDays := (matchedBaseline dfOpen flag
      (seriesModeHead (spikeDays.map (·.dow)))
      (seriesModeHead (spikeDays.map (·.month)))).1
    let pr := computeFlagPrior dfOpen minObs shrink maxMult flag
    pr ∈ compute_spike_uplift_priors cols dfSales dsMax minObs shrink maxMult ∧
    pr.uplift_multiplier = clipQ (7/10) maxMult
      (1 + shrink * (seriesMedian (spikeDays.map (·.y)) /
        seriesMedian (baseDays.map (·.y)) - 1)) ∧
    7/10 ≤ pr.uplift_multiplier ∧ pr.uplift_multiplier ≤ maxMult := by
  intro dfOpen spikeDays baseDays pr
  have hOpenNe : dfOpen.length ≠ 0 := by
    intro h0
    rw [List.length_eq_zero] at h0
    apply hne
    show dfOpen.filter (fun r => flagTrue r flag) = []
    rw [h0]
    rfl
  have hbne : baseDays.length ≠ 0 := by
    intro h0
    rw [List.length_eq_zero] at h0
    exact hbase h0
  have hne2 : ¬ ((List.filter (fun r => flagTrue r flag) dfOpen).length < minObs) := by
    simp only [not_lt]
    exact hn
  have hb2 : ¬ ((matchedBaseline dfOpen flag
      (seriesModeHead (List.map (fun x => x.dow)
        (List.filter (fun r => flagTrue r flag) dfOpen)))
      (seriesModeHead (List.map (fun x => x.month)
        (List.filter (fun r => flagTrue r flag) dfOpen)))).1.length = 0) := by
    intro h0
    exact hbase (List.length_eq_zero.mp h0)
  have hm2 : 0 < seriesMedian (List.map (fun x => x.y)
      (matchedBaseline dfOpen flag
        (seriesModeHead (List.map (fun x => x.dow)
          (List.filter (fun r => flagTrue r flag) dfOpen)))
        (seriesModeHead (List.map (fun x => x.month)
          (List.filter (fun r => flagTrue r flag) dfOpen)))).1) := hmed
  have hpr : pr = ⟨flag,
      clipQ (7/10) maxMult (1 + shrink * (seriesMedian (spikeDays.map (·.y)) /
        seriesMedian (baseDays.map (·.y)) - 1)),
      (if 5 ≤ spikeDays.length then "high"
        else if 3 ≤ spikeDays.length then "medium"
        else if 2 ≤ spikeDays.length then "low"
        else "very_low"),
      spikeDays.length,
      (matchedBaseline dfOpen flag
        (seriesModeHead (spikeDays.map (·.dow)))
        (seriesModeHead (spikeDays.map (·.month)))).2⟩ := by
    show computeFlagPrior dfOpen minObs shrink maxMult flag = _
    simp only [computeFlagPrior, if_neg hne2, if_neg hb2, if_pos hm2]
  refine ⟨?_, ?_, ?_, ?_⟩
  · show pr ∈ compute_spike_uplift_priors cols dfSales dsMax minObs shrink maxMult
    rw [compute_spike_uplift_priors, if_neg hOpenNe]
    exact List.mem_map_of_mem _ hflag
  · rw [hpr]
  · rw [hpr]
    exact (clipQ_bounds _ hcap).1
  · rw [hpr]
    exact (clipQ_bounds _ hcap).2

/-- Witness for C7: a single Black Friday observation (y = 2000) against
three matched baseline Fridays in November (y = 1000), with
`min_observations = 1`, shrinkage 0.5 and cap 2.5: raw uplift 2.0, shrunk
1.5, final multiplier 1.5. -/
theorem spike_priors_formula_witness :
    let mk : Date → ℚ → Bool → HRow := fun d y b =>
      ⟨d, y, false, 4, 11, [("is_black_friday", b)]⟩
    let hist : List HRow :=
      [mk ⟨2025, 11, 28⟩ 2000 true, mk ⟨2025, 11, 7⟩ 1000 false,
       mk ⟨2025, 11, 14⟩ 1000 false, mk ⟨2025, 11, 21⟩ 1000 false]
    let pr := computeFlagPrior (truncatedOpen hist none) 1 (1/2) (5/2)
      "is_black_friday"
    pr ∈ compute_spike_uplift_priors ["is_black_friday"] hist none 1 (1/2) (5/2) ∧
    pr.uplift_multiplier = 3/2 := by
  intro mk hist pr
  obtain ⟨hmem, hval, _, _⟩ :=
    spike_priors_formula ["is_black_friday"] hist none 1 (1/2) (5/2)
      "is_black_friday" (by decide) (by decide) (by decide) (by decide)
      (by decide) (by norm_num)
  refine ⟨hmem, ?_⟩
  rw [hval]
  have h1 : seriesMedian ((((truncatedOpen hist none).filter
      (fun r => flagTrue r "is_black_friday"))).map (·.y)) = 2000 := by decide
  have h2 : seriesMedian (((matchedBaseline (truncatedOpen hist none)
      "is_black_friday"
      (seriesModeHead (((truncatedOpen hist none).filter
        (fun r => flagTrue r "is_black_friday")).map (·.dow)))
      (seriesModeHead (((truncatedOpen hist none).filter
        (fun r => flagTrue r "is_black_friday")).map (·.month)))).1).map (·.y))
      = 1000 := by decide
  rw [h1, h2]
  norm_num [clipQ]

/-! ## Ensemble blending (`ensemble.py::EnsembleModel.predict`) -/

/-- `ensemble.py::assign_horizon_bucket`. -/
def assign_horizon_bucket (horizon : Int) : String :=
  if 1 ≤ horizon ∧ horizon ≤ 7 then "1-7"
  else if 8 ≤ horizon ∧ horizon ≤ 14 then "8-14"
  else if 15 ≤ horizon ∧ horizon ≤ 30 then "15-30"
  else if 31 ≤ horizon ∧ horizon ≤ 90 then "31-90"
  else if 91 ≤ horizon ∧ horizon ≤ 380 then "91-380"
  else "other"

/-- The per-target-date weight renormalization in `EnsembleModel.predict`:
raw weights are looked up (default 0) for the models present on that date;
if the raw sum is not positive the fallback is uniform
`1/max(1, len(available))`, otherwise each raw weight is divided by the raw
sum. -/
def predictEffectiveWeights (weights : List (String × ℚ))
    (avail : List String) : List ℚ :=
  let raw := avail.map (fun m => (lookupKey m weights).getD 0)
  if raw.sum ≤ 0 then
    avail.map (fun _ => 1 / ((max 1 avail.length : ℕ) : ℚ))
  else raw.map (fun w => w / raw.sum)

/-- The per-date blend of `EnsembleModel.predict`: weighted sums of the
present models' (deduplicate-averaged) `p50`/`p80`/`p90` under the effective
weights. -/
def blendDate (weights : List (String × ℚ))
    (modelRows : List (String × ℚ × ℚ × ℚ)) : ℚ × ℚ × ℚ :=
  let avail := modelRows.map Prod.fst
  let w := predictEffectiveWeights weights avail
  let dot : List ℚ → ℚ := fun vals => ((vals.zip w).map (fun q => q.1 * q.2)).sum
  (dot (modelRows.map (fun p => p.2.1)),
   dot (modelRows.map (fun p => p.2.2.1)),
   dot (modelRows.map (fun p => p.2.2.2)))

/-- C5: for any learned bucket weights and any nonempty set of models
present for a target date, the effective weight vector used by
`EnsembleModel.predict` sums to exactly 1: positive raw sums are
renormalized, and a nonpositive raw sum (in particular a present-model set
disjoint from the bucket's weights) falls back to uniform `1/k` weights. -/
theorem ensemble_effective_weights_sum_one
    (weights : List (String × ℚ)) (avail : List String) (h : avail ≠ []) :
    (predictEffectiveWeights weights avail).sum = 1 ∧
    ((avail.map (fun m => (lookupKey m weights).getD 0)).sum ≤ 0 →
      predictEffectiveWeights weights avail =
        avail.map (fun _ => 1 / ((max 1 avail.length : ℕ) : ℚ))) := by
  have hlen : avail.length ≠ 0 := fun h0 => h (List.length_eq_zero.mp h0)
  have hmax : max 1 avail.length = avail.length := by omega
  by_cases hs : (avail.map (fun m => (lookupKey m weights).getD 0)).sum ≤ 0
  · constructor
    · simp only [predictEffectiveWeights, if_pos hs]
      have hconst : avail.map (fun _ => 1 / ((max 1 avail.length : ℕ) : ℚ)) =
          List.replicate avail.length (1 / ((max 1 avail.length : ℕ) : ℚ)) := by
        rw [List.map_const']
      rw [hconst, List.sum_replicate, hmax, nsmul_eq_mul]
      rw [mul_one_div, div_self (by exact_mod_cast hlen)]
    · intro _
      simp only [predictEffectiveWeights, if_pos hs]
  · constructor
    · simp only [predictEffectiveWeights, if_neg hs]
      push_neg at hs
      have hsne : (avail.map (fun m => (lookupKey m weights).getD 0)).sum ≠ 0 :=
        ne_of_gt hs
      simp only [div_eq_mul_inv]
      rw [List.sum_map_mul_right, List.map_id'']
      exact mul_inv_cancel₀ hsne
      exact fun x => rfl
    · intro hc
      exact absurd hc hs

/-- Witness for C5: bucket weights `{a: 2, b: 3}` with present models
`[a, c]` (partially disjoint): raw sum 2 is positive, so the effective
weights are `[1, 0]`, summing to 1. -/
theorem ensemble_effective_weights_sum_one_witness :
    (predictEffectiveWeights [("a", 2), ("b", 3)] ["a", "c"]).sum = 1 ∧
    (predictEffectiveWeights [("a", 2)] ["c", "d"]).sum = 1 := by
  refine ⟨(ensemble_effective_weights_sum_one [("a", 2), ("b", 3)] ["a", "c"]
    (by decide)).1, (ensemble_effective_weights_sum_one [("a", 2)] ["c", "d"]
    (by decide)).1⟩

/-! ## Ensemble weights persistence (`ensemble.py::EnsembleModel.save` and
the loading loop in `export.py::generate_forecast`) -/

/-- `EnsembleModel.save`: flatten the nested bucket → model → weight mapping
into `(horizon_bucket, model_name, weight)` rows. -/
def saveWeights (w : List (String × List (String × ℚ))) :
    List (String × String × ℚ) :=
  w.flatMap (fun bw => bw.2.map (fun mw => (bw.1, mw.1, mw.2)))

/-- The weight-loading loop of `generate_forecast`: for each distinct
`horizon_bucket` value, the `dict(zip(model_name, weight))` of the rows of
that bucket. -/
def loadWeights (rows : List (String × String × ℚ)) :
    List (String × List (String × ℚ)) :=
  ((rows.map (fun r => r.1)).dedup).map (fun b =>
    (b, (rows.filter (fun r => decide (r.1 = b))).map (fun r => (r.2.1, r.2.2))))

theorem saveWeights_filter_not_mem (b : String) :
    ∀ w : List (String × List (String × ℚ)), b ∉ w.map Prod.fst →
      (saveWeights w).filter (fun r => decide (r.1 = b)) = [] := by
  intro w
  induction w with
  | nil => intro _; rfl
  | cons bw rest ih =>
    intro hb
    simp only [List.map_cons, List.mem_cons] at hb
    push_neg at hb
    have hstep : saveWeights (bw :: rest) =
        bw.2.map (fun mw => (bw.1, mw.1, mw.2)) ++ saveWeights rest := rfl
    rw [hstep, List.filter_append]
    have h1 : (bw.2.map (fun mw => (bw.1, mw.1, mw.2))).filter
        (fun r => decide (r.1 = b)) = [] := by
      apply List.filter_eq_nil_iff.mpr
      intro r hr
      simp only [List.mem_map] at hr
      obtain ⟨mw, _, rfl⟩ := hr
      simp only [decide_eq_true_eq]
      exact fun hh => hb.1 hh.symm
    rw [h1, List.nil_append]
    exact ih hb.2

theorem saveWeights_filter_mem (b : String) (ws : List (String × ℚ)) :
    ∀ w : List (String × List (String × ℚ)), (b, ws) ∈ w →
      (w.map Prod.fst).Nodup →
      (saveWeights w).filter (fun r => decide (r.1 = b)) =
        ws.map (fun mw => (b, mw.1, mw.2)) := by
  intro w
  induction w with
  | nil => intro h _; simp at h
  | cons bw rest ih =>
    intro hmem hnd
    simp only [List.map_cons, List.nodup_cons] at hnd
    have hstep : saveWeights (bw :: rest) =
        bw.2.map (fun mw => (bw.1, mw.1, mw.2)) ++ saveWeights rest := rfl
    rw [hstep, List.filter_append]
    rcases List.mem_cons.mp hmem with heq | htail
    · have hb : bw.1 = b := by rw [← heq]
      have h1 : (bw.2.map (fun mw => (bw.1, mw.1, mw.2))).filter
          (fun r => decide (r.1 = b)) = ws.map (fun mw => (b, mw.1, mw.2)) := by
        have hws : bw.2 = ws := by rw [← heq]
        rw [hws, hb]
        apply List.filter_eq_self.mpr
        intro r hr
        simp only [List.mem_map] at hr
        obtain ⟨mw, _, rfl⟩ := hr
        simp
      have h2 : (saveWeights rest).filter (fun r => decide (r.1 = b)) = [] := by
        apply saveWeights_filter_not_mem
        rw [← hb]
        exact hnd.1
      rw [h1, h2, List.append_nil]
    · have hbne : bw.1 ≠ b := by
        intro hbb
        apply hnd.1
        rw [hbb]
        exact List.mem_map_of_mem Prod.fst htail
      have h1 : (bw.2.map (fun mw => (bw.1, mw.1, mw.2))).filter
          (fun r => decide (r.1 = b)) = [] := by
        apply List.filter_eq_nil_iff.mpr
        intro r hr
        simp only [List.mem_map] at hr
        obtain ⟨mw, _, rfl⟩ := hr
        simp only [decide_eq_true_eq]
        exact hbne
      rw [h1, List.nil_append]
      exact ih htail hnd.2

theorem lookupKey_map_self {β : Type} (b : String) (g : String → β) :
    ∀ keys : List String, b ∈ keys →
      lookupKey b (keys.map (fun k => (k, g k))) = some (g b) := by
  intro keys
  induction keys with
  | nil => intro h; simp at h
  | cons k ks ih =>
    intro hmem
    by_cases hk : k = b
    · simp [lookupKey, List.find?, hk]
    · have hb : b ∈ ks := by
        rcases List.mem_cons.mp hmem with h | h
        · exact absurd h.symm hk
        · exact h
      have := ih hb
      simp only [lookupKey, List.map_cons, List.find?] at this ⊢
      rw [decide_eq_false hk]
      exact this

/-- C8: saving `EnsembleWeights` as flat `(horizon_bucket, model_name,
weight)` rows and reconstructing the nested mapping the way
`generate_forecast` does yields, for every bucket with at least one model,
exactly the original model → weight table of that bucket. -/
theorem ensemble_weights_roundtrip
    (w : List (String × List (String × ℚ)))
    (hnd : (w.map Prod.fst).Nodup)
    (b : String) (ws : List (String × ℚ))
    (hmem : (b, ws) ∈ w) (hne : ws ≠ []) :
    lookupKey b (loadWeights (saveWeights w)) = some ws := by
  obtain ⟨mw, hmw⟩ := List.exists_mem_of_ne_nil ws hne
  have hrow : (b, mw.1, mw.2) ∈ saveWeights w := by
    apply List.mem_flatMap.mpr
    exact ⟨(b, ws), hmem, List.mem_map_of_mem _ hmw⟩
  have hbmem : b ∈ (saveWeights w).map (fun r => r.1) :=
    List.mem_map.mpr ⟨(b, mw.1, mw.2), hrow, rfl⟩
  have hbded : b ∈ ((saveWeights w).map (fun r => r.1)).dedup :=
    List.mem_dedup.mpr hbmem
  have hload := lookupKey_map_self b
    (fun b' => ((saveWeights w).filter (fun r => decide (r.1 = b'))).map
      (fun r => (r.2.1, r.2.2)))
    (((saveWeights w).map (fun r => r.1)).dedup) hbded
  rw [loadWeights, hload]
  congr 1
  show ((saveWeights w).filter (fun r => decide (r.1 = b))).map
    (fun r => (r.2.1, r.2.2)) = ws
  rw [saveWeights_filter_mem b ws w hmem hnd, List.map_map]
  have hid : ((fun r : String × String × ℚ => (r.2.1, r.2.2)) ∘
      (fun mw : String × ℚ => (b, mw.1, mw.2))) = id := by
    funext p
    rfl
  rw [hid, List.map_id]

/-- Witness for C8: two buckets with distinct weight tables survive the
flat-save / load round-trip. -/
theorem ensemble_weights_roundtrip_witness :
    let w : List (String × List (String × ℚ)) :=
      [("1-7", [("gbm_short", 1), ("seasonal_naive_weekly", 0)]),
       ("8-14", [("gbm_short", 0), ("seasonal_naive_weekly", 1)])]
    lookupKey "8-14" (loadWeights (saveWeights w)) =
      some [("gbm_short", 0), ("seasonal_naive_weekly", 1)] := by
  intro w
  exact ensemble_weights_roundtrip w (by decide) "8-14"
    [("gbm_short", 0), ("seasonal_naive_weekly", 1)] (by decide) (by decide)

/-! ## Growth calibration (`growth_calibration.py`) -/

/-- One row of the forecast frame as seen by growth calibration: date,
quantiles, spike-flag columns, closed flag, the temporary `is_excluded`
column and the `calibration_scale` column the layer writes. -/
structure GRow where
  ds : Date
  p50 : ℚ
  p80 : ℚ
  p90 : ℚ
  flags : List (String × Bool)
  is_closed : Bool
  is_excluded : Bool
  calibration_scale : ℚ
deriving DecidableEq, Repr

/-- One row of the historical sales frame (`ds, y, is_closed`). -/
structure HistRow where
  ds : Date
  y : ℚ
  is_closed : Bool
deriving DecidableEq, Repr

/-- The baseline history actually summed: open days only when the history
frame has an `is_closed` column (`histHasClosed`), otherwise all rows. -/
def histOpenRows (histHasClosed : Bool) (hist : List HistRow) : List HistRow :=
  if histHasClosed then hist.filter (fun r => !r.is_closed) else hist

/-- The months present in the grouped baseline history
(`hist_month_totals.index`). -/
def histMonths (hist : List HistRow) : List Nat := hist.map (fun r => r.ds.month)

/-- `hist_month_totals[month]`: baseline-year total for one month. -/
def histMonthTotal (hist : List HistRow) (m : Nat) : ℚ :=
  ((hist.filter (fun r => decide (r.ds.month = m))).map (fun r => r.y)).sum

/-- `df[mask_month & is_excluded]["p50"].sum()`. -/
def monthExcludedTotal (df : List GRow) (m : Nat) : ℚ :=
  ((df.filter (fun r => decide (r.ds.month = m) && r.is_excluded)).map
    (fun r => r.p50)).sum

/-- `df[mask_month & ~is_excluded]["p50"].sum()`. -/
def monthNonexcludedTotal (df : List GRow) (m : Nat) : ℚ :=
  ((df.filter (fun r => decide (r.ds.month = m) && !r.is_excluded)).map
    (fun r => r.p50)).sum

/-- Multiply the quantiles of a row by a scale and record it in
`calibration_scale`. -/
def scaleRowBy (s : ℚ) (r : GRow) : GRow :=
  { r with
      p50 := r.p50 * s
      p80 := r.p80 * s
      p90 := r.p90 * s
      calibration_scale := s }

/-- One iteration of the `for month in range(1, 13)` loop of
`_apply_monthly_calibration`: skip months absent from the baseline index or
with nonpositive non-excluded total; otherwise scale the month's
non-excluded rows by the clipped scale and record it. -/
def monthStep (histOpen : List HistRow) (rate lo hi : ℚ)
    (df : List GRow) (m : Nat) : List GRow :=
  if m ∉ histMonths histOpen then df
  else
    let target := histMonthTotal histOpen m * (1 + rate)
    let excl := monthExcludedTotal df m
    let nonexcl := monthNonexcludedTotal df m
    if nonexcl ≤ 0 then df
    else
      let s := clipQ lo hi ((target - excl) / nonexcl)
      df.map (fun r =>
        if r.ds.month = m ∧ r.is_excluded = false then scaleRowBy s r else r)

/-- `growth_calibration.py::_apply_monthly_calibration`: group the baseline
history by month (open days only when the `is_closed` column exists),
initialize `calibration_scale = 1.0`, then run the month loop. -/
def monthly_calibration (df : List GRow) (histHasClosed : Bool)
    (histYear : List HistRow) (rate lo hi : ℚ) : List GRow :=
  let histOpen := histOpenRows histHasClosed histYear
  let df0 := df.map (fun r => { r with calibration_scale := 1 })
  [1, 2, 3, 4, 5, 6, 7, 8, 9, 10, 11, 12].foldl
    (monthStep histOpen rate lo hi) df0

/-- The `is_excluded` computation of `apply_growth_calibration`: any
configured spike flag present as a column and true, or a closed day. -/
def exclOf (excludedFlags : List String) (r : GRow) : Bool :=
  (excludedFlags.any (fun f => (lookupKey f r.flags).getD false)) || r.is_closed

/-- Maximum of a list of dates (pandas `Series.max`; junk default for the
empty history, which the caller guards against). -/
def maxDate (l : List Date) : Date :=
  match l with
  | [] => ⟨0, 0, 0⟩
  | d :: ds => ds.foldl (fun acc x => if Date.leB acc x then x else acc) d

/-- Baseline-year selection: the year of the latest history date if it is a
December 31, otherwise the previous year. -/
def baselineYear (hist : List HistRow) : Int :=
  let md := maxDate (hist.map (fun r => r.ds))
  if md.month = 12 ∧ md.day = 31 then md.year else md.year - 1

/-- `growth_calibration.py::apply_growth_calibration` in monthly mode:
compute `is_excluded` from the configured spike flags plus closed days,
filter the history to the baseline year, and run the monthly calibration.
(The per-day calibration log it also returns is not modelled; the frame
result is identical.) -/
def apply_growth_calibration (df : List GRow) (hist : List HistRow)
    (excludedFlags : List String) (rate lo hi : ℚ)
    (histHasClosed : Bool) : List GRow :=
  let df1 := df.map (fun r => { r with is_excluded := exclOf excludedFlags r })
  let histYear := hist.filter (fun r => decide (r.ds.year = baselineYear hist))
  monthly_calibration df1 histHasClosed histYear rate lo hi

/-- The per-month scale `_apply_monthly_calibration` effectively applies,
before restricting to the loop's month range: the clipped
`(baseline*(1+rate) − excluded_total) / non_excluded_total` when the month
is in the baseline index with positive non-excluded total, else 1. -/
def monthlySpecScaleCore (histOpen : List HistRow) (rate lo hi : ℚ)
    (df : List GRow) (m : Nat) : ℚ :=
  if m ∈ histMonths histOpen ∧ 0 < monthNonexcludedTotal df m then
    clipQ lo hi ((histMonthTotal histOpen m * (1 + rate) -
      monthExcludedTotal df m) / monthNonexcludedTotal df m)
  else 1

/-- As `monthlySpecScaleCore`, additionally 1 outside the loop's month
range 1–12. -/
def monthlySpecScale (histOpen : List HistRow) (rate lo hi : ℚ)
    (df : List GRow) (m : Nat) : ℚ :=
  if 1 ≤ m ∧ m ≤ 12 then monthlySpecScaleCore histOpen rate lo hi df m else 1

theorem monthExcludedTotal_cons (a : GRow) (l : List GRow) (m : Nat) :
    monthExcludedTotal (a :: l) m =
      (if decide (a.ds.month = m) && a.is_excluded then a.p50 else 0) +
        monthExcludedTotal l m := by
  simp only [monthExcludedTotal, List.filter_cons]
  by_cases h : (decide (a.ds.month = m) && a.is_excluded) = true
  · rw [if_pos h, if_pos h, List.map_cons, List.sum_cons]
  · rw [if_neg h, if_neg h, zero_add]

theorem monthNonexcludedTotal_cons (a : GRow) (l : List GRow) (m : Nat) :
    monthNonexcludedTotal (a :: l) m =
      (if decide (a.ds.month = m) && !a.is_excluded then a.p50 else 0) +
        monthNonexcludedTotal l m := by
  simp only [monthNonexcludedTotal, List.filter_cons]
  by_cases h : (decide (a.ds.month = m) && !a.is_excluded) = true
  · rw [if_pos h, if_pos h, List.map_cons, List.sum_cons]
  · rw [if_neg h, if_neg h, zero_add]

/-- Positional agreement of two frames outside one month: months aligned at
every position, rows of the given month identical. -/
def MAgree (m : Nat) : List GRow → List GRow → Prop :=
  List.Forall₂ (fun a b => a.ds.month = b.ds.month ∧ (a.ds.month = m → a = b))

theorem MAgree_refl (m : Nat) (l : List GRow) : MAgree m l l :=
  List.forall₂_same.mpr (fun _ _ => ⟨rfl, fun _ => rfl⟩)

theorem MAgree_trans {m : Nat} :
    ∀ {l1 l2 l3 : List GRow}, MAgree m l1 l2 → MAgree m l2 l3 →
      MAgree m l1 l3 := by
  intro l1 l2 l3 h12
  induction h12 generalizing l3 with
  | nil =>
    intro h23
    cases h23
    exact List.Forall₂.nil
  | cons hab _ ih =>
    intro h23
    cases h23 with
    | cons hbc htail =>
      exact List.Forall₂.cons
        ⟨hab.1.trans hbc.1,
         fun hm => (hab.2 hm).trans (hbc.2 (hab.1.symm.trans hm))⟩
        (ih htail)

theorem MAgree_sums {m : Nat} :
    ∀ {l1 l2 : List GRow}, MAgree m l1 l2 →
      monthExcludedTotal l1 m = monthExcludedTotal l2 m ∧
      monthNonexcludedTotal l1 m = monthNonexcludedTotal l2 m := by
  intro l1 l2 h
  induction h with
  | nil => exact ⟨rfl, rfl⟩
  | @cons a b t1 t2 hab _ ih =>
    obtain ⟨hm, heq⟩ := hab
    constructor
    · rw [monthExcludedTotal_cons, monthExcludedTotal_cons, ih.1]
      congr 1
      by_cases hmm : a.ds.month = m
      · rw [heq hmm]
      · have hb : ¬(b.ds.month = m) := fun hc => hmm (hm.trans hc)
        simp [hmm, hb]
    · rw [monthNonexcludedTotal_cons, monthNonexcludedTotal_cons, ih.2]
      congr 1
      by_cases hmm : a.ds.month = m
      · rw [heq hmm]
      · have hb : ¬(b.ds.month = m) := fun hc => hmm (hm.trans hc)
        simp [hmm, hb]

theorem MAgree_cal {m : Nat} :
    ∀ {l1 l2 : List GRow}, MAgree m l1 l2 →
      (∀ a ∈ l1, a.ds.month = m → a.calibration_scale = 1) →
      (∀ b ∈ l2, b.ds.month = m → b.calibration_scale = 1) := by
  intro l1 l2 h
  induction h with
  | nil => intro _ b hb; simp at hb
  | @cons a b t1 t2 hab _ ih =>
    intro hcal c hc hcm
    rcases List.mem_cons.mp hc with rfl | hc
    · have ham : a.ds.month = m := hab.1.trans hcm
      rw [← hab.2 ham]
      exact hcal a (List.mem_cons_self _ _) ham
    · exact ih (fun x hx => hcal x (List.mem_cons_of_mem _ hx)) c hc hcm

theorem forall₂_map_self {α : Type} {R : α → α → Prop} {g : α → α} :
    ∀ l : List α, (∀ a ∈ l, R a (g a)) → List.Forall₂ R l (l.map g) := by
  intro l
  induction l with
  | nil => intro _; exact List.Forall₂.nil
  | cons a t ih =>
    intro h
    exact List.Forall₂.cons (h a (List.mem_cons_self _ _))
      (ih (fun x hx => h x (List.mem_cons_of_mem _ hx)))

theorem monthStep_MAgree_ne {m m' : Nat} (hne : m' ≠ m)
    (histOpen : List HistRow) (rate lo hi : ℚ) (df : List GRow) :
    MAgree m df (monthStep histOpen rate lo hi df m') := by
  by_cases h1 : m' ∉ histMonths histOpen
  · rw [monthStep, if_pos h1]
    exact MAgree_refl m df
  · simp only [monthStep, if_neg h1]
    by_cases h2 : monthNonexcludedTotal df m' ≤ 0
    · rw [if_pos h2]
      exact MAgree_refl m df
    · rw [if_neg h2]
      apply forall₂_map_self
      intro a _
      by_cases hc : a.ds.month = m' ∧ a.is_excluded = false
      · constructor
        · rw [if_pos hc]
          rfl
        · intro hm
          rw [hm] at hc
          exact absurd hc.1.symm hne
      · rw [if_neg hc]
        exact ⟨rfl, fun _ => rfl⟩

theorem scaleRowBy_one {a : GRow} (h : a.calibration_scale = 1) :
    scaleRowBy 1 a = a := by
  cases a
  simp_all [scaleRowBy]

theorem monthStep_apply {m : Nat} (histOpen : List HistRow) (rate lo hi : ℚ)
    (df : List GRow)
    (hcal : ∀ a ∈ df, a.ds.month = m → a.calibration_scale = 1) :
    List.Forall₂ (fun a c : GRow => a.ds.month = c.ds.month ∧
      (a.ds.month = m → c = scaleRowBy
        (if a.is_excluded then 1
         else monthlySpecScaleCore histOpen rate lo hi df m) a))
      df (monthStep histOpen rate lo hi df m) := by
  by_cases h1 : m ∉ histMonths histOpen
  · have hc1 : monthlySpecScaleCore histOpen rate lo hi df m = 1 := by
      rw [monthlySpecScaleCore, if_neg (fun hc => h1 hc.1)]
    rw [monthStep, if_pos h1, hc1]
    apply List.forall₂_same.mpr
    intro a ha
    refine ⟨rfl, fun hm => ?_⟩
    rw [ite_self]
    exact (scaleRowBy_one (hcal a ha hm)).symm
  · simp only [monthStep, if_neg h1]
    by_cases h2 : monthNonexcludedTotal df m ≤ 0
    · have hc1 : monthlySpecScaleCore histOpen rate lo hi df m = 1 := by
        rw [monthlySpecScaleCore, if_neg (fun hc => absurd hc.2 (not_lt.mpr h2))]
      rw [if_pos h2, hc1]
      apply List.forall₂_same.mpr
      intro a ha
      refine ⟨rfl, fun hm => ?_⟩
      rw [ite_self]
      exact (scaleRowBy_one (hcal a ha hm)).symm
    · rw [if_neg h2]
      have hcs : monthlySpecScaleCore histOpen rate lo hi df m =
          clipQ lo hi ((histMonthTotal histOpen m * (1 + rate) -
            monthExcludedTotal df m) / monthNonexcludedTotal df m) := by
        rw [monthlySpecScaleCore,
          if_pos ⟨not_not.mp h1, lt_of_not_le h2⟩]
      apply forall₂_map_self
      intro a ha
      constructor
      · by_cases hc : a.ds.month = m ∧ a.is_excluded = false
        · rw [if_pos hc]
          rfl
        · rw [if_neg hc]
      · intro hm
        cases hex : a.is_excluded with
        | true =>
          rw [if_neg (by simp : ¬(a.ds.month = m ∧ true = false)), if_pos rfl]
          exact (scaleRowBy_one (hcal a ha hm)).symm
        | false =>
          rw [if_pos ⟨hm, rfl⟩, if_neg (by simp : ¬(false = true)), hcs]

theorem foldl_MAgree_not_mem {m : Nat} (histOpen : List HistRow)
    (rate lo hi : ℚ) :
    ∀ (ms : List Nat) (df : List GRow), m ∉ ms →
      MAgree m df (ms.foldl (monthStep histOpen rate lo hi) df) := by
  intro ms
  induction ms with
  | nil => intro df _; exact MAgree_refl m df
  | cons m' rest ih =>
    intro df hm
    rw [List.foldl_cons]
    have hne : m' ≠ m := fun h => hm (by rw [h]; exact List.mem_cons_self _ _)
    exact MAgree_trans (monthStep_MAgree_ne hne histOpen rate lo hi df)
      (ih _ (fun hc => hm (List.mem_cons_of_mem _ hc)))

theorem rel_comp_MAgree {m : Nat} {S : ℚ} :
    ∀ {l1 l2 l3 : List GRow},
      List.Forall₂ (fun a c : GRow => a.ds.month = c.ds.month ∧
        (a.ds.month = m →
          c = scaleRowBy (if a.is_excluded then 1 else S) a)) l1 l2 →
      MAgree m l2 l3 →
      List.Forall₂ (fun a c : GRow => a.ds.month = c.ds.month ∧
        (a.ds.month = m →
          c = scaleRowBy (if a.is_excluded then 1 else S) a)) l1 l3 := by
  intro l1 l2 l3 h12
  induction h12 generalizing l3 with
  | nil =>
    intro h23
    cases h23
    exact List.Forall₂.nil
  | @cons a b t1 t2 hab _ ih =>
    intro h23
    cases h23 with
    | cons hbc htail =>
      refine List.Forall₂.cons ⟨hab.1.trans hbc.1, fun hm => ?_⟩ (ih htail)
      rw [← hbc.2 (hab.1.symm.trans hm)]
      exact hab.2 hm

theorem MAgree_comp_rel {m : Nat} {S : ℚ} :
    ∀ {l1 l2 l3 : List GRow}, MAgree m l1 l2 →
      List.Forall₂ (fun a c : GRow => a.ds.month = c.ds.month ∧
        (a.ds.month = m →
          c = scaleRowBy (if a.is_excluded then 1 else S) a)) l2 l3 →
      List.Forall₂ (fun a c : GRow => a.ds.month = c.ds.month ∧
        (a.ds.month = m →
          c = scaleRowBy (if a.is_excluded then 1 else S) a)) l1 l3 := by
  intro l1 l2 l3 h12
  induction h12 generalizing l3 with
  | nil =>
    intro h23
    cases h23
    exact List.Forall₂.nil
  | @cons a b t1 t2 hab _ ih =>
    intro h23
    cases h23 with
    | cons hbc htail =>
      refine List.Forall₂.cons ⟨hab.1.trans hbc.1, fun hm => ?_⟩ (ih htail)
      rw [hab.2 hm]
      exact hbc.2 (hab.1.symm.trans hm)

theorem foldl_monthStep_char (histOpen : List HistRow) (rate lo hi : ℚ)
    (m : Nat) :
    ∀ (ms : List Nat), ms.Nodup → m ∈ ms →
    ∀ (df : List GRow),
      (∀ a ∈ df, a.ds.month = m → a.calibration_scale = 1) →
      List.Forall₂ (fun a c : GRow => a.ds.month = c.ds.month ∧
        (a.ds.month = m → c = scaleRowBy
          (if a.is_excluded then 1
           else monthlySpecScaleCore histOpen rate lo hi df m) a))
        df (ms.foldl (monthStep histOpen rate lo hi) df) := by
  intro ms
  induction ms with
  | nil => intro _ hm; simp at hm
  | cons m' rest ih =>
    intro hnd hm df hcal
    rw [List.foldl_cons]
    have hnd' := List.nodup_cons.mp hnd
    rcases List.mem_cons.mp hm with rfl | hmrest
    · exact rel_comp_MAgree (monthStep_apply histOpen rate lo hi df hcal)
        (foldl_MAgree_not_mem histOpen rate lo hi rest _ hnd'.1)
    · have hne : m' ≠ m := fun h => hnd'.1 (h ▸ hmrest)
      have h1 : MAgree m df (monthStep histOpen rate lo hi df m') :=
        monthStep_MAgree_ne hne histOpen rate lo hi df
      have hcal' := MAgree_cal h1 hcal
      have ih' := ih hnd'.2 hmrest (monthStep histOpen rate lo hi df m') hcal'
      have hsums := MAgree_sums h1
      have hsc : monthlySpecScaleCore histOpen rate lo hi
          (monthStep histOpen rate lo hi df m') m =
          monthlySpecScaleCore histOpen rate lo hi df m := by
        rw [monthlySpecScaleCore, monthlySpecScaleCore, ← hsums.1, ← hsums.2]
      rw [hsc] at ih'
      exact MAgree_comp_rel h1 ih'

theorem init_monthTotals (df : List GRow) (m : Nat) :
    monthExcludedTotal (df.map (fun q => { q with calibration_scale := 1 })) m =
      monthExcludedTotal df m ∧
    monthNonexcludedTotal
        (df.map (fun q => { q with calibration_scale := 1 })) m =
      monthNonexcludedTotal df m := by
  induction df with
  | nil => exact ⟨rfl, rfl⟩
  | cons a t ih =>
    rw [List.map_cons]
    constructor
    · rw [monthExcludedTotal_cons, monthExcludedTotal_cons, ih.1]
    · rw [monthNonexcludedTotal_cons, monthNonexcludedTotal_cons, ih.2]

theorem init_specScaleCore (histOpen : List HistRow) (rate lo hi : ℚ)
    (df : List GRow) (m : Nat) :
    monthlySpecScaleCore histOpen rate lo hi
      (df.map (fun q => { q with calibration_scale := 1 })) m =
      monthlySpecScaleCore histOpen rate lo hi df m := by
  have h := init_monthTotals df m
  rw [monthlySpecScaleCore, monthlySpecScaleCore, h.1, h.2]

theorem scaleRowBy_one' (r : GRow) :
    ({ r with calibration_scale := 1 } : GRow) = scaleRowBy 1 r := by
  cases r
  simp [scaleRowBy]

theorem monthly_calibration_char (df : List GRow) (histHasClosed : Bool)
    (histYear : List HistRow) (rate lo hi : ℚ) :
    monthly_calibration df histHasClosed histYear rate lo hi =
      df.map (fun r => scaleRowBy
        (if r.is_excluded then 1
         else monthlySpecScale (histOpenRows histHasClosed histYear)
           rate lo hi df r.ds.month) r) := by
  have hcal0 : ∀ a ∈ df.map (fun q => ({ q with calibration_scale := 1 } : GRow)),
      a.calibration_scale = 1 := by
    intro a ha
    obtain ⟨q, _, rfl⟩ := List.mem_map.mp ha
    rfl
  show List.foldl
    (monthStep (histOpenRows histHasClosed histYear) rate lo hi)
    (df.map (fun q => { q with calibration_scale := 1 }))
    [1, 2, 3, 4, 5, 6, 7, 8, 9, 10, 11, 12] = _
  have h13 : (13 : Nat) ∉ ([1, 2, 3, 4, 5, 6, 7, 8, 9, 10, 11, 12] : List Nat) := by
    decide
  have hlen := (foldl_MAgree_not_mem (m := 13)
    (histOpenRows histHasClosed histYear) rate lo hi
    [1, 2, 3, 4, 5, 6, 7, 8, 9, 10, 11, 12]
    (df.map (fun q => { q with calibration_scale := 1 })) h13).length_eq
  rw [List.length_map] at hlen
  apply List.ext_get
  · rw [← hlen, List.length_map]
  · intro n h1 h2
    rw [List.length_map] at h2
    have hn : n < df.length := h2
    have hn0 : n < (df.map
        (fun q => ({ q with calibration_scale := 1 } : GRow))).length := by
      rw [List.length_map]
      exact hn
    have ha0 : (df.map (fun q => ({ q with calibration_scale := 1 } : GRow))).get
        ⟨n, hn0⟩ = { df.get ⟨n, hn⟩ with calibration_scale := 1 } := by
      simp [List.get_map]
    have hrhs : (df.map (fun r => scaleRowBy
        (if r.is_excluded then 1
         else monthlySpecScale (histOpenRows histHasClosed histYear)
           rate lo hi df r.ds.month) r)).get ⟨n, by rw [List.length_map]; exact hn⟩ =
        scaleRowBy
          (if (df.get ⟨n, hn⟩).is_excluded then 1
           else monthlySpecScale (histOpenRows histHasClosed histYear)
             rate lo hi df (df.get ⟨n, hn⟩).ds.month) (df.get ⟨n, hn⟩) := by
      simp [List.get_map]
    rw [hrhs]
    by_cases hr : 1 ≤ (df.get ⟨n, hn⟩).ds.month ∧ (df.get ⟨n, hn⟩).ds.month ≤ 12
    · have hmem : (df.get ⟨n, hn⟩).ds.month ∈
          ([1, 2, 3, 4, 5, 6, 7, 8, 9, 10, 11, 12] : List Nat) := by
        simp only [List.mem_cons, List.not_mem_nil, or_false]
        omega
      have hchar := foldl_monthStep_char
        (histOpenRows histHasClosed histYear) rate lo hi
        (df.get ⟨n, hn⟩).ds.month
        [1, 2, 3, 4, 5, 6, 7, 8, 9, 10, 11, 12] (by decide) hmem
        (df.map (fun q => { q with calibration_scale := 1 }))
        (fun a ha _ => hcal0 a ha)
      have happ := hchar.get hn0 h1
      rw [ha0] at happ
      have hmonth : ({ df.get ⟨n, hn⟩ with calibration_scale := 1 } : GRow).ds.month
          = (df.get ⟨n, hn⟩).ds.month := rfl
      have heq := happ.2 hmonth
      have hsc := init_specScaleCore (histOpenRows histHasClosed histYear)
        rate lo hi df (df.get ⟨n, hn⟩).ds.month
      rw [heq, hsc, monthlySpecScale, if_pos hr]
      rfl
    · have hnotmem : (df.get ⟨n, hn⟩).ds.month ∉
          ([1, 2, 3, 4, 5, 6, 7, 8, 9, 10, 11, 12] : List Nat) := by
        simp only [List.mem_cons, List.not_mem_nil, or_false]
        omega
      have hU := foldl_MAgree_not_mem
        (m := (df.get ⟨n, hn⟩).ds.month)
        (histOpenRows histHasClosed histYear) rate lo hi
        [1, 2, 3, 4, 5, 6, 7, 8, 9, 10, 11, 12]
        (df.map (fun q => { q with calibration_scale := 1 })) hnotmem
      have happ := hU.get hn0 h1
      rw [ha0] at happ
      have heq := happ.2 rfl
      rw [← heq, monthlySpecScale, if_neg hr, ite_self]
      exact scaleRowBy_one' _

/-- C4: in monthly mode, `apply_growth_calibration` scales each day by its
month's factor: for a month present in the (open-day) baseline-year history
with positive non-excluded p50 total, nonexcluded days are multiplied by
`clip((baseline_month_total*(1+rate) − excluded_month_p50_total) /
non_excluded_month_p50_total, min_scale, max_scale)` and that scale is
recorded; excluded days, months absent from the baseline history and months
with nonpositive non-excluded total keep scale 1.0. -/
theorem growth_calibration_monthly_formula (df : List GRow)
    (hist : List HistRow) (excludedFlags : List String) (rate lo hi : ℚ)
    (histHasClosed : Bool) :
    apply_growth_calibration df hist excludedFlags rate lo hi histHasClosed =
      df.map (fun r => scaleRowBy
        (if exclOf excludedFlags r then 1
         else monthlySpecScale
           (histOpenRows histHasClosed
             (hist.filter (fun h => decide (h.ds.year = baselineYear hist))))
           rate lo hi
           (df.map (fun q => { q with is_excluded := exclOf excludedFlags q }))
           r.ds.month)
        { r with is_excluded := exclOf excludedFlags r }) := by
  show monthly_calibration
    (df.map (fun r => { r with is_excluded := exclOf excludedFlags r }))
    histHasClosed
    (hist.filter (fun h => decide (h.ds.year = baselineYear hist)))
    rate lo hi = _
  rw [monthly_calibration_char, List.map_map]
  rfl

/-! ## Ensemble weight fitting (`ensemble.py::EnsembleModel.fit`) -/

/-- One out-of-fold backtest prediction row after loading and model-name
tagging: model, cutoff date, target date, horizon bucket, point estimate
(`p50`, nullable) and realized actual (`y`, nullable). -/
structure OOFRow where
  model_name : String
  cutoff_date : Int
  target_date : Int
  horizon_bucket : String
  p50 : Option ℚ
  y : Option ℚ
deriving DecidableEq, Repr

/-- First-occurrence deduplication (pandas `unique` /
`drop_duplicates`). -/
def uniqueFirst {α : Type} [DecidableEq α] (l : List α) : List α :=
  l.foldl (fun acc x => if x ∈ acc then acc else acc ++ [x]) []

/-- The model columns of the bucket pivot table: models with at least one
non-null `p50` in the bucket (`pivot_table` drops all-NaN columns). -/
def pivotCols (bucket : List OOFRow) : List String :=
  uniqueFirst ((bucket.filter (fun r => r.p50.isSome)).map
    (fun r => r.model_name))

/-- The pivot index: distinct `(cutoff_date, target_date)` pairs of the
bucket. -/
def pivotKeys (bucket : List OOFRow) : List (Int × Int) :=
  uniqueFirst (bucket.map (fun r => (r.cutoff_date, r.target_date)))

/-- One pivot cell (`aggfunc="first"`): the first non-null `p50` of the
given model at the given index key. -/
def pivotCell (bucket : List OOFRow) (k : Int × Int) (m : String) : Option ℚ :=
  ((bucket.filter (fun r => decide (r.model_name = m) &&
    decide (r.cutoff_date = k.1) && decide (r.target_date = k.2))).filterMap
    (fun r => r.p50)).head?

/-- The actual values merged onto one pivot key: the `y` entries of the
deduplicated `(cutoff_date, target_date, y)` triples matching the key
(a left merge can fan out when distinct `y` values share a key). -/
def yCands (bucket : List OOFRow) (k : Int × Int) : List (Option ℚ) :=
  ((uniqueFirst (bucket.map (fun r => (r.cutoff_date, r.target_date, r.y)))).filter
    (fun t => decide (t.1 = k.1) && decide (t.2.1 = k.2))).map (fun t => t.2.2)

/-- The rows surviving `df_pivot.dropna()`: keys where every model column is
non-null, fanned out over non-null merged actuals.  Each surviving row
carries its key, model cells and actual. -/
def completedRows (bucket : List OOFRow) (cols : List String) :
    List ((Int × Int) × List ℚ × ℚ) :=
  (pivotKeys bucket).flatMap (fun k =>
    let cells := cols.map (fun m => pivotCell bucket k m)
    if cells.all (fun c => c.isSome) then
      (yCands bucket k).filterMap (fun yo => yo.map (fun y =>
        (k, cells.reduceOption, y)))
    else [])

/-- `{m: 1.0/len(self.models) for m in self.models}`. -/
def equalWeights (models : List String) : List (String × ℚ) :=
  models.map (fun m => (m, 1 / (models.length : ℚ)))

/-- The body of the per-bucket loop of `EnsembleModel.fit`.  `solve` stands
for the external `scipy.optimize.minimize(..., method="SLSQP")` call on the
completed rows' model matrix and actuals: `some w` models a converged
result, `none` a failed one.  `prev` is `buckets[buckets.index(bucket)-1]`
(with Python's negative-index wraparound for the first bucket, whose branch
never reads it). -/
def fitBucketWeights (models : List String) (data : List OOFRow)
    (minRows : Nat) (solve : List (List ℚ) → List ℚ → Option (List ℚ))
    (acc : List (String × List (String × ℚ))) (prev : String)
    (b : String) : List (String × ℚ) :=
  let dfb := data.filter (fun r => decide (r.horizon_bucket = b))
  if dfb.length < minRows then
    if b = "1-7" then equalWeights models
    else (lookupKey prev acc).getD (equalWeights models)
  else
    let cols := pivotCols dfb
    let completed := completedRows dfb cols
    if completed.length < minRows then equalWeights models
    else
      let bucketModels := models.filter (fun m => decide (m ∈ cols))
      if bucketModels.length = 0 then equalWeights models
      else
        match solve (completed.map (fun row =>
            bucketModels.map (fun m => (pivotCell dfb row.1 m).getD 0)))
          (completed.map (fun row => row.2.2)) with
        | some w => models.map (fun m =>
            (m, match bucketModels.indexOf? m with
                | some i => w.getD i 0
                | none => 0))
        | none => models.map (fun m =>
            (m, if m ∈ bucketModels then 1 / (bucketModels.length : ℚ) else 0))

/-- `EnsembleModel.fit`: derive the model roster from the concatenated
tagged predictions (empty input aborts with no weights), then fit the five
fixed horizon buckets in order, each iteration storing its bucket's
weights. -/
def EnsembleModel_fit (data : List OOFRow) (minRows : Nat)
    (solve : List (List ℚ) → List ℚ → Option (List ℚ)) :
    List (String × List (String × ℚ)) :=
  if data.isEmpty then []
  else
    let models := uniqueFirst (data.map (fun r => r.model_name))
    [("1-7", "91-380"), ("8-14", "1-7"), ("15-30", "8-14"),
     ("31-90", "15-30"), ("91-380", "31-90")].foldl
      (fun acc pb =>
        acc ++ [(pb.1, fitBucketWeights models data minRows solve acc pb.2 pb.1)])
      []

/-- C6 (amended): in `EnsembleModel.fit`, a bucket whose raw out-of-fold
row count is below `min_rows` falls back to equal weights for bucket
"1-7" and to the previous bucket's stored weights for later buckets; but a
bucket whose raw count reaches `min_rows` while fewer than `min_rows`
complete rows survive the pivot + dropna gets equal weights across all
models for every bucket — it does not inherit.  All fallbacks are total
(no exception, no NaN in exact arithmetic). -/
theorem ensemble_fit_insufficient_fallbacks
    (models : List String) (data : List OOFRow) (minRows : Nat)
    (solve : List (List ℚ) → List ℚ → Option (List ℚ))
    (acc : List (String × List (String × ℚ))) (prev b : String) :
    ((data.filter (fun r => decide (r.horizon_bucket = b))).length < minRows →
      b = "1-7" →
      fitBucketWeights models data minRows solve acc prev b =
        equalWeights models) ∧
    ((data.filter (fun r => decide (r.horizon_bucket = b))).length < minRows →
      b ≠ "1-7" →
      fitBucketWeights models data minRows solve acc prev b =
        (lookupKey prev acc).getD (equalWeights models)) ∧
    (minRows ≤ (data.filter (fun r => decide (r.horizon_bucket = b))).length →
      (completedRows (data.filter (fun r => decide (r.horizon_bucket = b)))
        (pivotCols (data.filter (fun r => decide (r.horizon_bucket = b))))).length
        < minRows →
      fitBucketWeights models data minRows solve acc prev b =
        equalWeights models) := by
  refine ⟨?_, ?_, ?_⟩
  · intro hraw hb
    simp only [fitBucketWeights, if_pos hraw, if_pos hb]
  · intro hraw hb
    simp only [fitBucketWeights, if_pos hraw, if_neg hb]
  · intro hraw hcomp
    simp only [fitBucketWeights, if_neg (not_lt.mpr hraw), if_pos hcomp]

/-- Witness for C6 at a concrete input: bucket "8-14" has 2 raw rows but 0
complete rows (all actuals missing) with `min_rows = 1`, and receives equal
weights; bucket "15-30" has 0 raw rows and receives the previous bucket's
stored weights. -/
theorem ensemble_fit_insufficient_fallbacks_witness :
    let data : List OOFRow :=
      [⟨"m1", 0, 1, "1-7", some 10, some 12⟩,
       ⟨"m1", 0, 10, "8-14", some 9, none⟩,
       ⟨"m2", 0, 10, "8-14", some 8, none⟩]
    let solve : List (List ℚ) → List ℚ → Option (List ℚ) := fun _ _ => none
    (fitBucketWeights ["m1", "m2"] data 1 solve
        [("1-7", [("m1", 1), ("m2", 0)])] "1-7" "8-14" =
      equalWeights ["m1", "m2"]) ∧
    (fitBucketWeights ["m1", "m2"] data 1 solve
        [("8-14", [("m1", 1), ("m2", 0)])] "8-14" "15-30" =
      [("m1", 1), ("m2", 0)]) := by
  intro data solve
  constructor
  · exact (ensemble_fit_insufficient_fallbacks ["m1", "m2"] data 1 solve
      [("1-7", [("m1", 1), ("m2", 0)])] "1-7" "8-14").2.2
      (by decide) (by decide)
  · have h := (ensemble_fit_insufficient_fallbacks ["m1", "m2"] data 1 solve
      [("8-14", [("m1", 1), ("m2", 0)])] "8-14" "15-30").2.1
      (by decide) (by decide)
    rw [h]
    rfl

/-- Counterexample to C6 as stated: with `min_rows = 1`, bucket "8-14" has
fewer than `min_rows` usable rows after pivoting and dropping (its actuals
are all missing), yet `EnsembleModel.fit` assigns it equal weights over all
models instead of inheriting bucket "1-7"'s weights (which put weight 0 on
the model absent from bucket "1-7"). -/
theorem ensemble_fit_inherit_counterexample :
    let data : List OOFRow :=
      [⟨"m1", 0, 1, "1-7", some 10, some 12⟩,
       ⟨"m1", 0, 10, "8-14", some 9, none⟩,
       ⟨"m2", 0, 10, "8-14", some 8, none⟩]
    let solve : List (List ℚ) → List ℚ → Option (List ℚ) := fun _ _ => none
    let W := EnsembleModel_fit data 1 solve
    let dfb := data.filter (fun r => decide (r.horizon_bucket = "8-14"))
    (completedRows dfb (pivotCols dfb)).length < 1 ∧
    lookupKey "8-14" W =
      some (equalWeights (uniqueFirst (data.map (fun r => r.model_name)))) ∧
    lookupKey "1-7" W = some [("m1", 1 / ((1 : ℕ) : ℚ)), ("m2", 0)] ∧
    lookupKey "8-14" W ≠ lookupKey "1-7" W := by
  intro data solve W dfb
  refine ⟨by decide, rfl, rfl, ?_⟩
  have h1 : lookupKey "8-14" W =
      some [("m1", 1 / ((2 : ℕ) : ℚ)), ("m2", 1 / ((2 : ℕ) : ℚ))] := rfl
  have h2 : lookupKey "1-7" W = some [("m1", 1 / ((1 : ℕ) : ℚ)), ("m2", 0)] := rfl
  rw [h1, h2]
  intro h
  simp only [Option.some.injEq, List.cons.injEq, Prod.mk.injEq] at h
  have hz : (1 : ℚ) / ((2 : ℕ) : ℚ) = 0 := h.2.1.2
  norm_num at hz

end Forecasting
